import Mathlib

/-!
Verification of the overleaf-mcp tool layer (src/tools.py).

The Python module is shallowly embedded: every tool becomes a pure Lean
function over an explicit environment that models the external world
(the git command runner's answers, the file system state, the located
repository root).  File contents and search needles are modelled as
`List Char`; human-readable messages are `String`s built exactly as the
source builds them.  Subprocess results are modelled by `CmdResult`
(exit code, stdout, stderr); a `timedOut` flag models the
`subprocess.TimeoutExpired` handler.  The `data` payload attached to the
source's result objects is not modelled.  Newlines are modelled as the
single character `'\n'` (the source reads and writes UTF-8 text and uses
`str.splitlines`, whose extra unicode line boundaries never occur in the
flows considered here).

The regular-expression calls of the source (`re.search` / `re.sub`) are
modelled for metacharacter-free patterns, for which CPython's `re.search`
is substring containment and `re.sub` replaces every non-overlapping
occurrence left to right; theorems about the regex paths restrict to such
patterns.
-/

namespace OverleafMcp

/-- Decides whether `pat` is a prefix of `s` (character-wise). -/
def listIsPref : List Char → List Char → Bool
  | [], _ => true
  | _ :: _, [] => false
  | a :: as, b :: bs => a = b && listIsPref as bs

/-- Index (from `i`) of the leftmost position of `s` at which `pat` starts. -/
def findFirstAux (pat : List Char) : List Char → Nat → Option Nat
  | [], i => if listIsPref pat [] then some i else none
  | c :: rest, i =>
    if listIsPref pat (c :: rest) then some i else findFirstAux pat rest (i + 1)

/-- Index of the leftmost occurrence of `pat` inside `s`, if any. -/
def findFirst (pat s : List Char) : Option Nat :=
  findFirstAux pat s 0

/-- Substring test, as CPython's `needle in haystack`. -/
def isSubstrL (pat s : List Char) : Bool :=
  (findFirst pat s).isSome

/-- CPython `str.replace(old, new, 1)`: replace the leftmost occurrence only. -/
def replaceFirstL (pat repl s : List Char) : List Char :=
  match findFirst pat s with
  | none => s
  | some i => s.take i ++ repl ++ s.drop (i + pat.length)

/-- Fueled worker for `replaceAllL`. -/
def replaceAllAux (pat repl : List Char) : Nat → List Char → List Char
  | 0, s => s
  | fuel + 1, s =>
    match findFirst pat s with
    | none => s
    | some i => s.take i ++ repl ++ replaceAllAux pat repl fuel (s.drop (i + pat.length))

/-- Replace every non-overlapping occurrence of `pat`, left to right.  This is
CPython `re.sub(pat, repl, s)` for a metacharacter-free `pat` and a
backslash-free `repl` (for an empty needle CPython interleaves the
replacement; the source's needles of interest are nonempty and the theorems
below assume a nonempty needle). -/
def replaceAllL (pat repl s : List Char) : List Char :=
  if pat.isEmpty then s else replaceAllAux pat repl s.length s

/-- Substring test on `String`s, via their character lists. -/
def strContains (needle hay : String) : Bool :=
  isSubstrL needle.data hay.data

/-- CPython `str.lower`, restricted to the ASCII case mapping. -/
def lowerStr (s : String) : String :=
  ⟨s.data.map Char.toLower⟩

/-- CPython `str.strip()`: drop whitespace from both ends. -/
def stripL (l : List Char) : List Char :=
  ((l.dropWhile Char.isWhitespace).reverse.dropWhile Char.isWhitespace).reverse

/-- Value of a digit string, most significant first. -/
def natOfDigits (ds : List Char) : Nat :=
  ds.foldl (fun a c => a * 10 + (c.toNat - 48)) 0

/-- CPython `int(s)` for an already-stripped `s`: an optional sign followed
by at least one ASCII digit; anything else raises `ValueError`, modelled as
`none` (digit-group underscores and non-ASCII digits, which CPython also
accepts, never occur in `git rev-list --count` output and are not
modelled). -/
def parseIntL : List Char → Option Int
  | [] => none
  | '-' :: ds =>
    if !ds.isEmpty && ds.all Char.isDigit then some (-(natOfDigits ds : Int))
    else none
  | '+' :: ds =>
    if !ds.isEmpty && ds.all Char.isDigit then some ((natOfDigits ds : Int))
    else none
  | ds =>
    if ds.all Char.isDigit then some ((natOfDigits ds : Int)) else none

/-- True when the pattern contains no regex metacharacter, so that CPython
treats it as a literal needle. -/
def isRegexLiteral (p : List Char) : Bool :=
  p.all fun c => !((".^$*+?\x7b\x7d[]()|\\".data).contains c)

/-- Splits at every newline, keeping all pieces (one more piece than there
are newlines).  Worker for `splitlinesL`. -/
def splitlinesCore : List Char → List (List Char)
  | [] => [[]]
  | c :: rest =>
    if c = '\n' then [] :: splitlinesCore rest
    else
      match splitlinesCore rest with
      | [] => [[c]]
      | l :: ls => (c :: l) :: ls

/-- CPython `str.splitlines` for newline-only line boundaries: split at every
newline and drop the final piece when it is empty (so a trailing newline does
not create an extra empty line, and the empty string has no lines). -/
def splitlinesL (s : List Char) : List (List Char) :=
  let ls := splitlinesCore s
  if ls.getLast? = some [] then ls.dropLast else ls

/-- CPython `"\n".join(lines)`. -/
def joinLinesL : List (List Char) → List Char
  | [] => []
  | [l] => l
  | l :: l2 :: ls => l ++ '\n' :: joinLinesL (l2 :: ls)

/-- Result of one external command invocation: exit status and captured
output streams (`subprocess.run` with `capture_output=True`). -/
structure CmdResult where
  exitCode : Nat
  stdout : String
  stderr : String
deriving DecidableEq

/-- The observable behaviour of the git world during one `check_sync_status`
call: whether the marker directory exists, whether some git invocation hits
the `subprocess.TimeoutExpired` handler, the output of
`git status --porcelain`, and the result of `git rev-list --count <range>`
for each range string.  The source also runs `git fetch origin` but never
inspects its result, so no field models it. -/
structure GitEnv where
  isRepo : Bool
  timedOut : Bool
  statusOut : CmdResult
  revList : String → CmdResult

/-- One git command issued by `check_sync_status`, for the invocation trace. -/
inductive SyncCmd where
  | status
  | fetch
  | revCount (range : String)
deriving DecidableEq

/-- Mirror of the `SyncStatusResult` pydantic model, with its field defaults. -/
structure SyncStatusResult where
  success : Bool
  message : String
  is_synced : Bool := false
  local_ahead : Bool := false
  remote_ahead : Bool := false
  has_uncommitted : Bool := false
  warnings : List String := []
  suggestions : List String := []
  local_commits_ahead : Int := 0
  remote_commits_ahead : Int := 0
deriving DecidableEq

/-- The count/flag pair the source derives from one `rev-list --count` result:
`int(stdout.strip())` guarded by the exit code, with a `ValueError` (a
non-integer stdout) leaving the count at `0` and the flag at `False`. -/
def countFromResult (r : CmdResult) : Int × Bool :=
  if r.exitCode = 0 then
    match parseIntL (stripL r.stdout.data) with
    | some n => (n, decide (0 < n))
    | none => (0, false)
  else (0, false)

/-- The behind-count command result actually used: the first
`rev-list --count HEAD..origin/master` answer, re-queried once (with the
same range literal) when its exit code is non-zero — the source's retry
repeats `origin/master` rather than trying `origin/main`. -/
def syncBehind (env : GitEnv) : CmdResult :=
  let b1 := env.revList "HEAD..origin/master"
  if b1.exitCode ≠ 0 then env.revList "HEAD..origin/master" else b1

/-- The ahead-count command result actually used, with the same
repeated-range retry as `syncBehind`. -/
def syncAhead (env : GitEnv) : CmdResult :=
  let a1 := env.revList "origin/master..HEAD"
  if a1.exitCode ≠ 0 then env.revList "origin/master..HEAD" else a1

/-- Embedding of `check_sync_status(repo_path)` (src/tools.py:795-926).
Returns the result together with the trace of git commands issued, in
order: status, fetch, the two counts, then the retried counts when the
first attempts exited non-zero. -/
def check_sync_status (env : GitEnv) (repo_path : String) :
    SyncStatusResult × List SyncCmd :=
  if env.isRepo = false then
    ({ success := false, message := "Not a git repository: " ++ repo_path }, [])
  else if env.timedOut then
    ({ success := false, message := "Git operation timed out" }, [])
  else
    let has_uncommitted := !(stripL env.statusOut.stdout.data).isEmpty
    let rc := countFromResult (syncBehind env)
    let lc := countFromResult (syncAhead env)
    let remote_commits_ahead := rc.1
    let remote_ahead := rc.2
    let local_commits_ahead := lc.1
    let local_ahead := lc.2
    let warnings :=
      (if has_uncommitted then ["You have uncommitted local changes"] else [])
      ++ (if remote_ahead then
            ["Overleaf cloud has " ++ toString remote_commits_ahead
              ++ " commit(s) that are not in your local project"]
          else [])
      ++ (if local_ahead then
            ["Your local project has " ++ toString local_commits_ahead
              ++ " commit(s) that are not on Overleaf cloud"]
          else [])
    let suggestions :=
      (if has_uncommitted then ["Commit your changes before syncing"] else [])
      ++ (if remote_ahead then
            ["Run pull_overleaf_project to sync changes from Overleaf cloud"]
          else [])
      ++ (if local_ahead then
            ["Run push_to_overleaf to sync your local changes to Overleaf cloud"]
          else [])
    let is_synced := !remote_ahead && !local_ahead && !has_uncommitted
    let message :=
      if is_synced then "Project is fully synchronized with Overleaf cloud"
      else "Project has unsynchronized changes: " ++ toString warnings.length
        ++ " issue(s) found"
    ({ success := true, message := message, is_synced := is_synced,
       local_ahead := local_ahead, remote_ahead := remote_ahead,
       has_uncommitted := has_uncommitted, warnings := warnings,
       suggestions := suggestions, local_commits_ahead := local_commits_ahead,
       remote_commits_ahead := remote_commits_ahead },
     [SyncCmd.status, SyncCmd.fetch,
      SyncCmd.revCount "HEAD..origin/master", SyncCmd.revCount "origin/master..HEAD"]
     ++ (if (env.revList "HEAD..origin/master").exitCode ≠ 0 then
           [SyncCmd.revCount "HEAD..origin/master"] else [])
     ++ (if (env.revList "origin/master..HEAD").exitCode ≠ 0 then
           [SyncCmd.revCount "origin/master..HEAD"] else []))

/-- Mirror of the `ToolResult` pydantic model (the open-ended `data` mapping
is not modelled). -/
structure ToolResult where
  success : Bool
  message : String
deriving DecidableEq

/-- Mirror of the `ReadTextResult` pydantic model, with text as a character
list (the `match_info` mapping is not modelled). -/
structure ReadTextResult where
  success : Bool
  message : String
  text : List Char := []
  start_line : Option Int := none
  end_line : Option Int := none
deriving DecidableEq

/-- Observable side effects of one tool call, in order of occurrence:
the sync-status consultation, the write of the target file, and the git
commands issued by `push_to_overleaf`. -/
inductive Event where
  | syncCheck
  | fileWrite
  | gitAdd
  | gitCommit
  | gitPushMain
  | gitPushMaster
deriving DecidableEq

/-- The git world seen by one `push_to_overleaf` call: marker-directory
existence and the results of `git add -A`, `git commit -m …`,
`git push origin main` and `git push origin master`. -/
structure PushEnv where
  isRepo : Bool
  addResult : CmdResult
  commitResult : CmdResult
  pushMain : CmdResult
  pushMaster : CmdResult

/-- Embedding of `push_to_overleaf(repo_path, commit_message)`
(src/tools.py:477-570), returning the result and the trace of git commands
run.  The commit's exit code is never inspected: only its stdout is
searched (lower-cased) for "nothing to commit". -/
def push_to_overleaf (env : PushEnv) (repo_path commit_message : String) :
    ToolResult × List Event :=
  if env.isRepo = false then
    (⟨false, "Not a git repository: " ++ repo_path⟩, [])
  else if env.addResult.exitCode ≠ 0 then
    (⟨false, "Failed to stage changes: " ++ env.addResult.stderr⟩, [Event.gitAdd])
  else if strContains "nothing to commit" (lowerStr env.commitResult.stdout) then
    (⟨true, "No changes to commit"⟩, [Event.gitAdd, Event.gitCommit])
  else if env.pushMain.exitCode = 0 then
    (⟨true, "Successfully pushed changes to Overleaf"⟩,
     [Event.gitAdd, Event.gitCommit, Event.gitPushMain])
  else if env.pushMaster.exitCode = 0 then
    (⟨true, "Successfully pushed changes to Overleaf (master branch)"⟩,
     [Event.gitAdd, Event.gitCommit, Event.gitPushMain, Event.gitPushMaster])
  else
    (⟨false, "Failed to push to Overleaf: " ++ env.pushMaster.stderr⟩,
     [Event.gitAdd, Event.gitCommit, Event.gitPushMain, Event.gitPushMaster])

/-- State of the single target file: whether `Path(file_path).exists()` and
its current content. -/
structure FsState where
  present : Bool
  content : List Char
deriving DecidableEq

/-- The whole external world seen by one mutating tool call:
`find_git_repo_root(file_path)`'s answer, the git world consulted by the
embedded `check_sync_status` and `push_to_overleaf` calls, and the target
file's state. -/
structure WEnv where
  repoRoot : Option String
  git : GitEnv
  push : PushEnv
  fs : FsState

/-- One bulleted line per item, in order (the gate's `for` loops appending
to the message). -/
def bulletLines : List String → String
  | [] => ""
  | it :: rest => "  • " ++ it ++ "\n" ++ bulletLines rest

/-- The blocking message built by the edit gate when the sync check succeeds
with warnings: a fixed header, every warning bulleted in order, a
"Suggestions:" header, every suggestion bulleted in order, and a fixed
footer (src/tools.py:222-228). -/
def syncWarningMsg (warnings suggestions : List String) : String :=
  "⚠️ Sync check failed. Please resolve sync issues before editing:\n\n"
  ++ bulletLines warnings
  ++ "\nSuggestions:\n"
  ++ bulletLines suggestions
  ++ "\nAfter resolving sync issues, you can retry the edit operation."

/-- Embedding of `read_text` (src/tools.py:80-195).  Pattern search is
modelled for metacharacter-free regexes, for which `re.search` finds the
leftmost occurrence of the literal needle and `match.group(0)` is the
needle itself; line numbers are newline counts before the match
boundaries, plus one. -/
def read_text (fs : FsState) (file_path : String) (pattern : Option (List Char))
    (start_line end_line : Option Int) (use_regex : Bool) : ReadTextResult :=
  if fs.present = false then
    { success := false, message := "File not found: " ++ file_path }
  else
    let content := fs.content
    let lines := splitlinesL content
    match pattern with
    | some pat =>
      match findFirst pat content with
      | some i =>
        let startPos := i
        let endPos := i + pat.length
        { success := true,
          message := (if use_regex then "Found pattern match in "
                      else "Found text match in ") ++ file_path,
          text := pat,
          start_line := some ((content.take startPos).count '\n' + 1),
          end_line := some ((content.take endPos).count '\n' + 1) }
      | none =>
        { success := false,
          message := (if use_regex then "Pattern not found in "
                      else "Text not found in ") ++ file_path }
    | none =>
      match start_line, end_line with
      | some s, some e =>
        if s < 1 || e > (lines.length : Int) || s > e then
          { success := false,
            message := "Invalid line range: " ++ toString s ++ "-" ++ toString e
              ++ " (file has " ++ toString lines.length ++ " lines)" }
        else
          let selected := (lines.drop (s - 1).toNat).take (e - s + 1).toNat
          { success := true,
            message := "Read lines " ++ toString s ++ "-" ++ toString e
              ++ " from " ++ file_path,
            text := joinLinesL selected,
            start_line := some s, end_line := some e }
      | _, _ =>
        { success := false,
          message := "Either pattern or both start_line and end_line must be provided" }

/-- The shared post-write tail of `write_text`'s three replacement branches:
re-resolve the repository root, push when one is found, and weave a push
failure (other than nothing-to-commit) into the success message as a
suffix while keeping `success=True` (src/tools.py:263-278, 300-315,
345-361). -/
def pushAfterWrite (env : WEnv) (commit_message baseMsg : String) :
    ToolResult × List Event :=
  match env.repoRoot with
  | some root =>
    let pr := push_to_overleaf env.push root commit_message
    if !pr.1.success && !strContains "nothing to commit" (lowerStr pr.1.message) then
      (⟨true, baseMsg ++ ", but push failed: " ++ pr.1.message⟩, pr.2)
    else
      (⟨true, baseMsg⟩, pr.2)
  | none => (⟨true, baseMsg⟩, [])

/-- The body of `write_text` after its edit gate (src/tools.py:245-381):
existence check, then replacement by regex pattern (every occurrence, via
`re.sub` with no count), by exact pattern (first occurrence, via
`str.replace(…, 1)`), or by line range, followed by the push tail. -/
def write_textCore (env : WEnv) (file_path : String) (new_content : List Char)
    (pattern : Option (List Char)) (start_line end_line : Option Int)
    (use_regex : Bool) : ToolResult × FsState × List Event :=
  if env.fs.present = false then
    (⟨false, "File not found: " ++ file_path⟩, env.fs, [])
  else
    let content := env.fs.content
    let lines := splitlinesL content
    match pattern with
    | some pat =>
      if use_regex then
        if isSubstrL pat content then
          let fs' : FsState := ⟨true, replaceAllL pat new_content content⟩
          let tail := pushAfterWrite env
            ("Updated " ++ file_path ++ " via write_text (regex)")
            ("Successfully replaced regex pattern in " ++ file_path)
          (tail.1, fs', Event.fileWrite :: tail.2)
        else
          (⟨false, "Pattern not found in " ++ file_path⟩, env.fs, [])
      else
        if isSubstrL pat content then
          let fs' : FsState := ⟨true, replaceFirstL pat new_content content⟩
          let tail := pushAfterWrite env
            ("Updated " ++ file_path ++ " via write_text (exact match)")
            ("Successfully replaced text in " ++ file_path)
          (tail.1, fs', Event.fileWrite :: tail.2)
        else
          (⟨false, "Text not found in " ++ file_path⟩, env.fs, [])
    | none =>
      match start_line, end_line with
      | some s, some e =>
        if s < 1 || e > (lines.length : Int) || s > e then
          (⟨false, "Invalid line range: " ++ toString s ++ "-" ++ toString e
              ++ " (file has " ++ toString lines.length ++ " lines)"⟩,
           env.fs, [])
        else
          let newLines := lines.take (s - 1).toNat ++ splitlinesL new_content
            ++ lines.drop e.toNat
          let fs' : FsState := ⟨true, joinLinesL newLines⟩
          let tail := pushAfterWrite env
            ("Updated " ++ file_path ++ " via write_text")
            ("Successfully replaced lines " ++ toString s ++ "-" ++ toString e
              ++ " in " ++ file_path)
          (tail.1, fs', Event.fileWrite :: tail.2)
      | _, _ =>
        (⟨false, "Either pattern or both start_line and end_line must be provided"⟩,
         env.fs, [])

/-- Embedding of `write_text` (src/tools.py:199-381): the edit gate
(consult `check_sync_status` when a repository root encloses the file and
refuse on a successful verdict with warnings), then the replacement body. -/
def write_text (env : WEnv) (file_path : String) (new_content : List Char)
    (pattern : Option (List Char)) (start_line end_line : Option Int)
    (use_regex : Bool) : ToolResult × FsState × List Event :=
  match env.repoRoot with
  | some root =>
    let sync := (check_sync_status env.git root).1
    if sync.success && !sync.warnings.isEmpty then
      (⟨false, syncWarningMsg sync.warnings sync.suggestions⟩, env.fs,
       [Event.syncCheck])
    else
      let body := write_textCore env file_path new_content pattern
        start_line end_line use_regex
      (body.1, body.2.1, Event.syncCheck :: body.2.2)
  | none =>
    write_textCore env file_path new_content pattern start_line end_line use_regex

/-- The body of `edit_latex_selection` after its edit gate
(src/tools.py:429-473): read the selection, replace it through
`write_text` (which runs its own gate and push), then push again and
compose the final message. -/
def editLatexSelectionCore (env : WEnv) (file_path : String)
    (start_line end_line : Int) (new_content : List Char) :
    ToolResult × FsState × List Event :=
  let rd := read_text env.fs file_path none (some start_line) (some end_line) false
  if rd.success = false then
    (⟨false, "Failed to read selection: " ++ rd.message⟩, env.fs, [])
  else
    let wr := write_text env file_path new_content none (some start_line)
      (some end_line) false
    if wr.1.success = false then
      (⟨false, "Failed to write selection: " ++ wr.1.message⟩, wr.2.1, wr.2.2)
    else
      let base := "Successfully edited lines " ++ toString start_line ++ "-"
        ++ toString end_line ++ " in " ++ file_path
      match env.repoRoot with
      | some root =>
        let pr := push_to_overleaf env.push root
          ("Updated " ++ file_path ++ " via edit_latex_selection")
        let pushOk := pr.1.success
          || strContains "nothing to commit" (lowerStr pr.1.message)
        (⟨true, if pushOk then base else base ++ ", but push failed: " ++ pr.1.message⟩,
         wr.2.1, wr.2.2 ++ pr.2)
      | none => (⟨true, base⟩, wr.2.1, wr.2.2)

/-- Embedding of `edit_latex_selection` (src/tools.py:385-473): the edit
gate, then the read/write/push body. -/
def edit_latex_selection (env : WEnv) (file_path : String)
    (start_line end_line : Int) (new_content : List Char) :
    ToolResult × FsState × List Event :=
  match env.repoRoot with
  | some root =>
    let sync := (check_sync_status env.git root).1
    if sync.success && !sync.warnings.isEmpty then
      (⟨false, syncWarningMsg sync.warnings sync.suggestions⟩, env.fs,
       [Event.syncCheck])
    else
      let body := editLatexSelectionCore env file_path start_line end_line new_content
      (body.1, body.2.1, Event.syncCheck :: body.2.2)
  | none => editLatexSelectionCore env file_path start_line end_line new_content

/-- The body of `edit_latex_file` after its (conditional) edit gate
(src/tools.py:618-645): write the whole file, push when a repository root
is found, and weave a push failure into the success message. -/
def editLatexFileCore (env : WEnv) (file_path : String) (content : List Char) :
    ToolResult × FsState × List Event :=
  let fs' : FsState := ⟨true, content⟩
  let base := "Successfully edited " ++ file_path
  match env.repoRoot with
  | some root =>
    let pr := push_to_overleaf env.push root
      ("Updated " ++ file_path ++ " via edit_latex_file")
    let pushOk := pr.1.success
      || strContains "nothing to commit" (lowerStr pr.1.message)
    (⟨true, if pushOk then base else base ++ ", but push failed: " ++ pr.1.message⟩,
     fs', Event.fileWrite :: pr.2)
  | none => (⟨true, base⟩, fs', [Event.fileWrite])

/-- Embedding of `edit_latex_file` (src/tools.py:574-650).  The edit gate
only runs when the target file already exists: a create goes straight to
the write even inside a version-controlled tree. -/
def edit_latex_file (env : WEnv) (file_path : String) (content : List Char) :
    ToolResult × FsState × List Event :=
  if env.fs.present then
    match env.repoRoot with
    | some root =>
      let sync := (check_sync_status env.git root).1
      if sync.success && !sync.warnings.isEmpty then
        (⟨false, syncWarningMsg sync.warnings sync.suggestions⟩, env.fs,
         [Event.syncCheck])
      else
        let body := editLatexFileCore env file_path content
        (body.1, body.2.1, Event.syncCheck :: body.2.2)
    | none => editLatexFileCore env file_path content
  else editLatexFileCore env file_path content

/-- Leftmost match of the pattern `/project/([a-zA-Z0-9]+)`: at each start
position, a `/project/` needle followed by at least one alphanumeric
character; on a group that cannot match, the search resumes one character
further (CPython regex semantics). -/
def extractProjectId : List Char → Option (List Char)
  | [] => none
  | c :: rest =>
    if listIsPref "/project/".data (c :: rest) then
      let run := ((c :: rest).drop 9).takeWhile fun ch => ch.isAlpha || ch.isDigit
      if run.isEmpty then extractProjectId rest else some run
    else extractProjectId rest

/-- The characters of `s` with trailing slashes removed (`str.rstrip('/')`). -/
def rstripSlash (s : List Char) : List Char :=
  (s.reverse.dropWhile fun c => c = '/').reverse

/-- The last `/`-separated segment of `s` (`s.split('/')[-1]`). -/
def lastSegment (s : List Char) : List Char :=
  (s.reverse.takeWhile fun c => c ≠ '/').reverse

/-- Embedding of `convert_overleaf_url_to_git` (src/tools.py:653-678).  The
final `raise` of the source is unreachable: `str.split` always returns a
non-empty list, so the fallback branch always produces an address. -/
def convert_overleaf_url_to_git (overleaf_url : String) : String :=
  if strContains "git.overleaf.com" overleaf_url then overleaf_url
  else
    match extractProjectId overleaf_url.data with
    | some id => ⟨"https://git.overleaf.com/".data ++ id⟩
    | none =>
      ⟨"https://git.overleaf.com/".data ++ lastSegment (rstripSlash overleaf_url.data)⟩

/-- Mirror of the `PullResult` pydantic model. -/
structure PullResult where
  success : Bool
  message : String
  local_path : String := ""
  files_pulled : List String := []
deriving DecidableEq

/-- The external world seen by one `pull_overleaf_project` call: the two
environment variables, the user's Desktop path, whether the local
directory is already a clone, the git pull (main, then master) and clone
results, the relative paths of the regular files found under the local
directory (in `rglob` order), and the absolute-path resolution. -/
structure PullEnv where
  envToken : Option String
  envProjectUrl : Option String
  homeDesktop : String
  localHasGit : Bool
  pullMain : CmdResult
  pullMaster : CmdResult
  cloneResult : CmdResult
  filesUnder : List String
  absOf : String → String

/-- The file list computed on both success paths of `pull_overleaf_project`
(src/tools.py:746, 770): every regular file under the local directory whose
full path string does not contain the substring ".git", capped at the
first 50 entries.  `str(f)` is the local path joined to the relative path
with a slash. -/
def pullFileList (localPath : String) (filesUnder : List String) : List String :=
  (filesUnder.filter fun rel => !strContains ".git" (localPath ++ "/" ++ rel)).take 50

/-- Embedding of `pull_overleaf_project` (src/tools.py:682-791). -/
def pull_overleaf_project (env : PullEnv) (project_url : Option String)
    (local_path : Option String) (token : Option String) : PullResult :=
  let tok := match token with
    | some t => if t.data.isEmpty then
        (env.envToken.getD "olp_3qbcfOFz3NXQfCrIqdjRCNG6Rj4JJJ2csSuD") else t
    | none => env.envToken.getD "olp_3qbcfOFz3NXQfCrIqdjRCNG6Rj4JJJ2csSuD"
  let url? := match project_url with
    | some u => if u.data.isEmpty then env.envProjectUrl else some u
    | none => env.envProjectUrl
  match url? with
  | none =>
    { success := false,
      message := "No project URL provided and OVERLEAF_PROJECT_URL not found in environment" }
  | some u =>
    let git_url := convert_overleaf_url_to_git u
    let localPath := match local_path with
      | some p => if p.data.isEmpty then
          env.homeDesktop ++ "/overleaf-" ++ (⟨lastSegment git_url.data⟩ : String)
        else p
      | none => env.homeDesktop ++ "/overleaf-" ++ (⟨lastSegment git_url.data⟩ : String)
    let _authenticated_url : String :=
      ⟨replaceAllL "https://".data ("https://git:" ++ tok ++ "@").data git_url.data⟩
    if env.localHasGit then
      let pr := if env.pullMain.exitCode ≠ 0 then env.pullMaster else env.pullMain
      if pr.exitCode = 0 then
        { success := true,
          message := "Successfully pulled latest changes to " ++ localPath,
          local_path := env.absOf localPath,
          files_pulled := pullFileList localPath env.filesUnder }
      else
        { success := false, message := "Failed to pull changes: " ++ pr.stderr }
    else
      if env.cloneResult.exitCode = 0 then
        { success := true,
          message := "Successfully cloned Overleaf project to " ++ localPath,
          local_path := env.absOf localPath,
          files_pulled := pullFileList localPath env.filesUnder }
      else
        { success := false,
          message := "Failed to clone project: " ++ env.cloneResult.stderr }

/-- Scans a trace and checks that every file write is preceded by an earlier
sync-status consultation; the accumulator records whether a consultation
has been seen. -/
def writesGatedAux : Bool → List Event → Bool
  | _, [] => true
  | _, Event.syncCheck :: t => writesGatedAux true t
  | seen, Event.fileWrite :: t => seen && writesGatedAux seen t
  | seen, _ :: t => writesGatedAux seen t

/-- True when every file write in the trace happens after some sync-status
consultation. -/
def writesGated (t : List Event) : Bool :=
  writesGatedAux false t

/-- A well-formed git world: whenever a `rev-list --count` answer parses as
an integer, that integer is nonnegative (git prints a cardinality). -/
def GitCountsNonneg (env : GitEnv) : Prop :=
  ∀ range n, parseIntL (stripL (env.revList range).stdout.data) = some n → 0 ≤ n

/-- A concrete healthy git world: a repository, no timeout, clean status,
and every count query answering `0` with exit code `0`. -/
def envClean : GitEnv :=
  { isRepo := true, timedOut := false,
    statusOut := ⟨0, "", ""⟩,
    revList := fun _ => ⟨0, "0", ""⟩ }

/-- A git world where the remote default branch is not `master`: every
`origin/master` count query fails. -/
def envNoMaster : GitEnv :=
  { isRepo := true, timedOut := false,
    statusOut := ⟨0, "", ""⟩,
    revList := fun _ => ⟨128, "", "fatal: bad revision"⟩ }

/-- The edit gate lets the call through: for the enclosing repository root
(when there is one) the sync check either fails or reports no warnings. -/
def gatePasses (env : WEnv) : Prop :=
  ∀ root, env.repoRoot = some root →
    ((check_sync_status env.git root).1.success
      && !(check_sync_status env.git root).1.warnings.isEmpty) = false

/-- A git world with uncommitted local changes: the sync check succeeds and
reports exactly the uncommitted-changes warning. -/
def gitWarn : GitEnv :=
  { isRepo := true, timedOut := false,
    statusOut := ⟨0, " M main.tex", ""⟩,
    revList := fun _ => ⟨0, "0", ""⟩ }

/-- A push world where everything succeeds. -/
def pushOk : PushEnv :=
  { isRepo := true, addResult := ⟨0, "", ""⟩,
    commitResult := ⟨0, "1 file changed", ""⟩,
    pushMain := ⟨0, "", ""⟩, pushMaster := ⟨0, "", ""⟩ }

/-- A mutating-call world inside a repository with uncommitted changes. -/
def envWarnW : WEnv :=
  { repoRoot := some "/repo", git := gitWarn, push := pushOk,
    fs := ⟨true, "a\nb\nc".data⟩ }

/-- A git world where the sync evaluation fails (the marker directory is
missing for the repository path, so `check_sync_status` returns
success=false). -/
def gitDown : GitEnv :=
  { isRepo := false, timedOut := false,
    statusOut := ⟨0, "", ""⟩,
    revList := fun _ => ⟨0, "0", ""⟩ }

/-- A mutating-call world whose sync evaluation fails. -/
def envSyncFail : WEnv :=
  { repoRoot := some "/repo", git := gitDown, push := pushOk,
    fs := ⟨true, "a\nb\nc".data⟩ }

/-- A world where the target file does not exist yet, inside a repository
whose sync check succeeds with warnings. -/
def envNoFile : WEnv :=
  { repoRoot := some "/repo", git := gitWarn, push := pushOk,
    fs := ⟨false, []⟩ }

/-- A mutating-call world outside any version-controlled tree. -/
def envPlain : WEnv :=
  { repoRoot := none, git := gitDown, push := pushOk,
    fs := ⟨true, "aba aba".data⟩ }

/-- A push world whose commit reports nothing to commit. -/
def pushNtc : PushEnv :=
  { isRepo := true, addResult := ⟨0, "", ""⟩,
    commitResult := ⟨1, "On branch master\nnothing to commit, working tree clean", ""⟩,
    pushMain := ⟨0, "", ""⟩, pushMaster := ⟨0, "", ""⟩ }

/-- A push world where staging and commit work but both pushes fail. -/
def pushFail : PushEnv :=
  { isRepo := true, addResult := ⟨0, "", ""⟩,
    commitResult := ⟨0, "1 file changed", ""⟩,
    pushMain := ⟨1, "", "authentication failed"⟩,
    pushMaster := ⟨1, "", "authentication failed"⟩ }

/-- A mutating-call world with a clean sync verdict but a failing push. -/
def envPushFail : WEnv :=
  { repoRoot := some "/repo", git := envClean, push := pushFail,
    fs := ⟨true, "a\nb\nc".data⟩ }

/-- A push world with no author identity configured: the commit fails with
exit code 128 and an empty stdout, yet the push of the existing head
succeeds. -/
def pushNoIdent : PushEnv :=
  { isRepo := true, addResult := ⟨0, "", ""⟩,
    commitResult := ⟨128, "", "fatal: empty ident name not allowed"⟩,
    pushMain := ⟨0, "Everything up-to-date", ""⟩,
    pushMaster := ⟨0, "", ""⟩ }

/-- A mutating-call world outside any version-controlled tree, with a
three-line file. -/
def envPlainLines : WEnv :=
  { repoRoot := none, git := gitDown, push := pushOk,
    fs := ⟨true, "a\nb\nc".data⟩ }

/-- What the claim says the file list is: the relative paths that are not
the metadata directory or inside it, capped at 50 (written from the
claim's words, for comparison with the source's computation). -/
def specExpectedFilesPulled (filesUnder : List String) : List String :=
  (filesUnder.filter fun rel =>
    !(listIsPref ".git/".data rel.data || rel = ".git")).take 50

/-- A pull world whose project contains a top-level `.gitignore`. -/
def pullEnvDot : PullEnv :=
  { envToken := none, envProjectUrl := none, homeDesktop := "/home/u/Desktop",
    localHasGit := true, pullMain := ⟨0, "Already up to date.", ""⟩,
    pullMaster := ⟨0, "", ""⟩, cloneResult := ⟨0, "", ""⟩,
    filesUnder := ["main.tex", ".gitignore"],
    absOf := fun p => p }

/-- A healthy pull world with two project files. -/
def pullEnvOkay : PullEnv :=
  { envToken := none, envProjectUrl := none, homeDesktop := "/home/u/Desktop",
    localHasGit := true, pullMain := ⟨0, "Already up to date.", ""⟩,
    pullMaster := ⟨0, "", ""⟩, cloneResult := ⟨0, "", ""⟩,
    filesUnder := ["main.tex", "chapters/ch1.tex"],
    absOf := fun p => p }

lemma splitlinesCore_ne_nil (s : List Char) : splitlinesCore s ≠ [] := by
  induction s with
  | nil => simp [splitlinesCore]
  | cons c rest ih =>
    simp only [splitlinesCore]
    split
    · simp
    · split
      · simp
      · simp

lemma joinLinesL_cons (x : List Char) (ls : List (List Char)) (h : ls ≠ []) :
    joinLinesL (x :: ls) = x ++ '\n' :: joinLinesL ls := by
  cases ls with
  | nil => exact absurd rfl h
  | cons y ys => rfl

lemma join_splitlinesCore (s : List Char) : joinLinesL (splitlinesCore s) = s := by
  induction s with
  | nil => rfl
  | cons c rest ih =>
    by_cases hc : c = '\n'
    · subst hc
      have h1 : splitlinesCore ('\n' :: rest) = [] :: splitlinesCore rest := by
        simp [splitlinesCore]
      rw [h1, joinLinesL_cons _ _ (splitlinesCore_ne_nil rest), ih]
      rfl
    · cases hr : splitlinesCore rest with
      | nil => exact absurd hr (splitlinesCore_ne_nil rest)
      | cons l ls =>
        have h1 : splitlinesCore (c :: rest) = (c :: l) :: ls := by
          simp only [splitlinesCore, if_neg hc, hr]
        rw [h1]
        rw [hr] at ih
        cases ls with
        | nil =>
          simp only [joinLinesL] at ih ⊢
          rw [ih]
        | cons l2 ls2 =>
          rw [joinLinesL_cons l (l2 :: ls2) (by simp)] at ih
          rw [joinLinesL_cons (c :: l) (l2 :: ls2) (by simp), List.cons_append, ih]

lemma splitlinesCore_no_newline (l : List Char) (h : '\n' ∉ l) :
    splitlinesCore l = [l] := by
  induction l with
  | nil => rfl
  | cons c rest ih =>
    have hc : c ≠ '\n' := fun hh => h (hh ▸ List.mem_cons_self c rest)
    have hrest : '\n' ∉ rest := fun hh => h (List.mem_cons_of_mem c hh)
    simp only [splitlinesCore, if_neg hc, ih hrest]

lemma splitlinesCore_append_newline (l t : List Char) (h : '\n' ∉ l) :
    splitlinesCore (l ++ '\n' :: t) = l :: splitlinesCore t := by
  induction l with
  | nil => simp [splitlinesCore]
  | cons c rest ih =>
    have hc : c ≠ '\n' := fun hh => h (hh ▸ List.mem_cons_self c rest)
    have hrest : '\n' ∉ rest := fun hh => h (List.mem_cons_of_mem c hh)
    simp [splitlinesCore, hc, ih hrest]

lemma splitlinesCore_join (ls : List (List Char)) (hne : ls ≠ [])
    (hfree : ∀ l ∈ ls, '\n' ∉ l) : splitlinesCore (joinLinesL ls) = ls := by
  induction ls with
  | nil => exact absurd rfl hne
  | cons l rest ih =>
    cases rest with
    | nil =>
      simp only [joinLinesL]
      exact splitlinesCore_no_newline l (hfree l (by simp))
    | cons l2 rest2 =>
      rw [joinLinesL_cons _ _ (by simp)]
      rw [splitlinesCore_append_newline _ _ (hfree l (by simp))]
      rw [ih (by simp) (fun x hx => hfree x (List.mem_cons_of_mem l hx))]

lemma mem_splitlinesCore_no_newline (s : List Char) :
    ∀ l ∈ splitlinesCore s, '\n' ∉ l := by
  induction s with
  | nil => simp [splitlinesCore]
  | cons c rest ih =>
    intro l hl
    simp only [splitlinesCore] at hl
    by_cases hc : c = '\n'
    · rw [if_pos hc] at hl
      rcases List.mem_cons.mp hl with h | h
      · simp [h]
      · exact ih l h
    · rw [if_neg hc] at hl
      cases hr : splitlinesCore rest with
      | nil => exact absurd hr (splitlinesCore_ne_nil rest)
      | cons x xs =>
        rw [hr] at hl
        rcases List.mem_cons.mp hl with h | h
        · subst h
          intro hmem
          rcases List.mem_cons.mp hmem with h2 | h2
          · exact hc h2.symm
          · exact ih x (hr ▸ List.mem_cons_self x xs) h2
        · exact ih l (hr ▸ List.mem_cons_of_mem x h)

lemma mem_splitlinesL_no_newline (s : List Char) :
    ∀ l ∈ splitlinesL s, '\n' ∉ l := by
  intro l hl
  apply mem_splitlinesCore_no_newline s l
  simp only [splitlinesL] at hl
  split at hl
  · exact (List.dropLast_sublist (splitlinesCore s)).mem hl
  · exact hl

lemma splitlinesL_join (ls : List (List Char)) (hne : ls ≠ [])
    (hfree : ∀ l ∈ ls, '\n' ∉ l) :
    splitlinesL (joinLinesL ls)
      = if ls.getLast? = some [] then ls.dropLast else ls := by
  simp only [splitlinesL]
  rw [splitlinesCore_join ls hne hfree]

lemma joinLinesL_append_singleton (xs : List (List Char)) (y : List Char)
    (h : xs ≠ []) : joinLinesL (xs ++ [y]) = joinLinesL xs ++ '\n' :: y := by
  induction xs with
  | nil => exact absurd rfl h
  | cons x rest ih =>
    cases rest with
    | nil => rfl
    | cons x2 rest2 =>
      rw [List.cons_append, joinLinesL_cons _ _ (by simp),
        joinLinesL_cons _ _ (by simp), ih (by simp)]
      simp

lemma splitlinesL_no_trailing_empty (nc : List Char)
    (hnorm : joinLinesL (splitlinesL nc) = nc) :
    (splitlinesL nc).getLast? ≠ some [] := by
  intro hlast
  have hcore := join_splitlinesCore nc
  simp only [splitlinesL] at hnorm hlast
  split at hlast
  · rename_i hdrop
    -- the final piece is empty: the core ends with two empty pieces
    have hdl : (splitlinesCore nc).dropLast ≠ [] := by
      intro hd
      rw [hd] at hlast
      simp at hlast
    have hsplit : (splitlinesCore nc).dropLast ++ [[]] = splitlinesCore nc :=
      @List.dropLast_append_getLast? (List Char) (splitlinesCore nc) []
        (Option.mem_def.mpr hdrop)
    rw [if_pos hdrop] at hnorm
    have h3 : nc = nc ++ ['\n'] := by
      conv_lhs => rw [← hcore, ← hsplit]
      rw [joinLinesL_append_singleton _ _ hdl, hnorm]
    have hlen := congrArg List.length h3
    simp at hlen
  · rename_i hkeep
    exact hkeep hlast

lemma dropLast_append_ne {α : Type} (xs ys : List α) (h : ys ≠ []) :
    (xs ++ ys).dropLast = xs ++ ys.dropLast := by
  rw [List.dropLast_append]
  have : ys.isEmpty = false := by
    cases ys with
    | nil => exact absurd rfl h
    | cons y t => rfl
  rw [this]
  rfl

lemma writesGatedAux_true (t : List Event) : writesGatedAux true t = true := by
  induction t with
  | nil => rfl
  | cons e rest ih => cases e <;> simp [writesGatedAux, ih]

lemma writesGated_syncCheck_cons (t : List Event) :
    writesGated (Event.syncCheck :: t) = true := by
  simp [writesGated, writesGatedAux, writesGatedAux_true]

lemma listIsPref_append_self (p y : List Char) : listIsPref p (p ++ y) = true := by
  induction p with
  | nil => rfl
  | cons c rest ih => simp [listIsPref, ih]

lemma findFirstAux_isSome (p x y : List Char) (i : Nat) :
    (findFirstAux p (x ++ (p ++ y)) i).isSome = true := by
  induction x generalizing i with
  | nil =>
    cases hp : p ++ y with
    | nil =>
      have h0 : p = [] := (List.append_eq_nil.mp hp).1
      simp [findFirstAux, h0, listIsPref]
    | cons c rest =>
      simp only [List.nil_append, hp, findFirstAux]
      rw [← hp, listIsPref_append_self]
      simp
  | cons c rest ih =>
    simp only [List.cons_append, findFirstAux]
    split
    · simp
    · exact ih (i + 1)

lemma isSubstrL_of_eq_append (p s x y : List Char) (h : s = x ++ (p ++ y)) :
    isSubstrL p s = true := by
  rw [h]
  unfold isSubstrL findFirst
  exact findFirstAux_isSome p x y 0

lemma bulletLines_decomp (w : String) (ws : List String) (hw : w ∈ ws) :
    ∃ x y : List Char, (bulletLines ws).data = x ++ (w.data ++ y) := by
  induction ws with
  | nil => cases hw
  | cons v rest ih =>
    rcases List.mem_cons.mp hw with h | h
    · subst h
      refine ⟨"  • ".data, "\n".data ++ (bulletLines rest).data, ?_⟩
      simp [bulletLines, String.data_append]
    · rcases ih h with ⟨x, y, hxy⟩
      refine ⟨("  • " ++ v ++ "\n").data ++ x, y, ?_⟩
      simp [bulletLines, String.data_append, hxy]

lemma syncWarningMsg_contains_warning (w : String) (ws ss : List String)
    (hw : w ∈ ws) : strContains w (syncWarningMsg ws ss) = true := by
  rcases bulletLines_decomp w ws hw with ⟨x, y, hxy⟩
  unfold strContains syncWarningMsg
  apply isSubstrL_of_eq_append w.data _
    ("⚠️ Sync check failed. Please resolve sync issues before editing:\n\n".data ++ x)
    (y ++ ("\nSuggestions:\n"
      ++ bulletLines ss
      ++ "\nAfter resolving sync issues, you can retry the edit operation.").data)
  simp [String.data_append, hxy]

lemma syncWarningMsg_contains_suggestion (s : String) (ws ss : List String)
    (hs : s ∈ ss) : strContains s (syncWarningMsg ws ss) = true := by
  rcases bulletLines_decomp s ss hs with ⟨x, y, hxy⟩
  unfold strContains syncWarningMsg
  apply isSubstrL_of_eq_append s.data _
    (("⚠️ Sync check failed. Please resolve sync issues before editing:\n\n"
      ++ bulletLines ws
      ++ "\nSuggestions:\n").data ++ x)
    (y ++ "\nAfter resolving sync issues, you can retry the edit operation.".data)
  simp [String.data_append, hxy]

lemma syncBehind_eq (env : GitEnv) :
    syncBehind env = env.revList "HEAD..origin/master" := by
  simp only [syncBehind]
  split <;> rfl

lemma syncAhead_eq (env : GitEnv) :
    syncAhead env = env.revList "origin/master..HEAD" := by
  simp only [syncAhead]
  split <;> rfl

lemma countFromResult_flag (r : CmdResult)
    (h : ∀ n : Int, parseIntL (stripL r.stdout.data) = some n → 0 ≤ n) :
    ((countFromResult r).2 = true ↔ (countFromResult r).1 ≠ 0) := by
  unfold countFromResult
  split
  · cases hp : parseIntL (stripL r.stdout.data) with
    | none => simp
    | some n =>
      have hn := h n hp
      simp only [decide_eq_true_eq]
      omega
  · simp

/-- C1: on a successful `check_sync_status` verdict, `is_synced` holds iff
the warnings list is empty, iff there are no uncommitted changes and both
ahead counts are zero. -/
theorem C1_sync_verdict_invariant (env : GitEnv) (rp : String)
    (hgit : GitCountsNonneg env)
    (hsucc : (check_sync_status env rp).1.success = true) :
    ((check_sync_status env rp).1.is_synced = true
      ↔ (check_sync_status env rp).1.warnings = [])
    ∧ ((check_sync_status env rp).1.is_synced = true
      ↔ (check_sync_status env rp).1.has_uncommitted = false
        ∧ (check_sync_status env rp).1.local_commits_ahead = 0
        ∧ (check_sync_status env rp).1.remote_commits_ahead = 0) := by
  have h1 : env.isRepo = true := by
    by_contra hc
    have h1' : env.isRepo = false := by revert hc; cases env.isRepo <;> simp
    simp [check_sync_status, h1'] at hsucc
  have h2 : env.timedOut = false := by
    by_contra hc
    have h2' : env.timedOut = true := by revert hc; cases env.timedOut <;> simp
    simp [check_sync_status, h1, h2'] at hsucc
  have hrc := countFromResult_flag (syncBehind env)
    (by rw [syncBehind_eq]; exact fun n hp => hgit "HEAD..origin/master" n hp)
  have hlc := countFromResult_flag (syncAhead env)
    (by rw [syncAhead_eq]; exact fun n hp => hgit "origin/master..HEAD" n hp)
  simp only [check_sync_status, h1, h2, Bool.false_eq_true, if_false, if_true,
    Bool.not_eq_true]
  rcases hb : countFromResult (syncBehind env) with ⟨nr, ra⟩
  rcases ha : countFromResult (syncAhead env) with ⟨nl, la⟩
  rw [hb] at hrc
  rw [ha] at hlc
  simp only at hrc hlc
  cases hu : !(stripL env.statusOut.stdout.data).isEmpty <;>
    cases ra <;> cases la <;> simp_all

lemma envClean_counts : GitCountsNonneg envClean := by
  intro range n h
  have h0 : parseIntL (stripL (("0" : String).data)) = some 0 := by decide
  have := Option.some.inj (h0.symm.trans h)
  omega

/-- C1 witness: the invariant instantiated at a concrete git world. -/
theorem C1_sync_verdict_invariant_witness :
    (check_sync_status envClean "/repo").1.success = true
    ∧ (((check_sync_status envClean "/repo").1.is_synced = true
        ↔ (check_sync_status envClean "/repo").1.warnings = [])
      ∧ ((check_sync_status envClean "/repo").1.is_synced = true
        ↔ (check_sync_status envClean "/repo").1.has_uncommitted = false
          ∧ (check_sync_status envClean "/repo").1.local_commits_ahead = 0
          ∧ (check_sync_status envClean "/repo").1.remote_commits_ahead = 0)) :=
  ⟨by decide,
   C1_sync_verdict_invariant envClean "/repo" envClean_counts (by decide)⟩

/-- C2: when the first behind/ahead count commands fail, the retry re-runs
the identical `origin/master` range (never an `origin/main` alternate) and
both counts silently fall back to zero.  This contradicts the source's own
comment "Try master branch if main doesn't work": the intended alternate
candidate is never queried. -/
theorem C2_branch_retry_repeats_master (env : GitEnv) (rp : String)
    (h1 : env.isRepo = true) (h2 : env.timedOut = false)
    (hb : (env.revList "HEAD..origin/master").exitCode ≠ 0)
    (ha : (env.revList "origin/master..HEAD").exitCode ≠ 0) :
    (check_sync_status env rp).1.remote_commits_ahead = 0
    ∧ (check_sync_status env rp).1.local_commits_ahead = 0
    ∧ (check_sync_status env rp).2
      = [SyncCmd.status, SyncCmd.fetch,
         SyncCmd.revCount "HEAD..origin/master",
         SyncCmd.revCount "origin/master..HEAD",
         SyncCmd.revCount "HEAD..origin/master",
         SyncCmd.revCount "origin/master..HEAD"]
    ∧ SyncCmd.revCount "HEAD..origin/main" ∉ (check_sync_status env rp).2
    ∧ SyncCmd.revCount "origin/main..HEAD" ∉ (check_sync_status env rp).2 := by
  have hbe : countFromResult (syncBehind env) = (0, false) := by
    rw [syncBehind_eq]
    unfold countFromResult
    rw [if_neg hb]
  have hae : countFromResult (syncAhead env) = (0, false) := by
    rw [syncAhead_eq]
    unfold countFromResult
    rw [if_neg ha]
  have htrace : (check_sync_status env rp).2
      = [SyncCmd.status, SyncCmd.fetch,
         SyncCmd.revCount "HEAD..origin/master",
         SyncCmd.revCount "origin/master..HEAD",
         SyncCmd.revCount "HEAD..origin/master",
         SyncCmd.revCount "origin/master..HEAD"] := by
    simp [check_sync_status, h1, h2, hb, ha]
  refine ⟨?_, ?_, htrace, ?_, ?_⟩
  · simp [check_sync_status, h1, h2, hbe]
  · simp [check_sync_status, h1, h2, hae]
  · rw [htrace]; decide
  · rw [htrace]; decide

/-- C2 witness: the repeated-retry behaviour at a concrete git world. -/
theorem C2_branch_retry_repeats_master_witness :
    (envNoMaster.revList "HEAD..origin/master").exitCode ≠ 0
    ∧ (check_sync_status envNoMaster "/repo").1.remote_commits_ahead = 0
    ∧ SyncCmd.revCount "HEAD..origin/main" ∉ (check_sync_status envNoMaster "/repo").2 :=
  ⟨by decide,
   (C2_branch_retry_repeats_master envNoMaster "/repo" (by decide) (by decide)
      (by decide) (by decide)).1,
   (C2_branch_retry_repeats_master envNoMaster "/repo" (by decide) (by decide)
      (by decide) (by decide)).2.2.2.1⟩

lemma pushAfterWrite_success (env : WEnv) (m b : String) :
    (pushAfterWrite env m b).1.success = true := by
  unfold pushAfterWrite
  cases env.repoRoot with
  | none => rfl
  | some root =>
    simp only []
    split <;> rfl

lemma isEmpty_false_of_ne_nil {α : Type} {l : List α} (h : l ≠ []) :
    l.isEmpty = false := by
  cases l with
  | nil => exact absurd rfl h
  | cons a t => rfl

lemma write_text_gate_block (env : WEnv) (root fp : String) (nc : List Char)
    (pat : Option (List Char)) (sl el : Option Int) (ur : Bool)
    (hroot : env.repoRoot = some root)
    (hs : (check_sync_status env.git root).1.success = true)
    (hw : (check_sync_status env.git root).1.warnings ≠ []) :
    write_text env fp nc pat sl el ur
      = (⟨false, syncWarningMsg (check_sync_status env.git root).1.warnings
            (check_sync_status env.git root).1.suggestions⟩, env.fs,
         [Event.syncCheck]) := by
  unfold write_text
  rw [hroot]
  simp only [hs, isEmpty_false_of_ne_nil hw, Bool.not_false, Bool.and_true, if_true]

lemma write_text_gate_pass (env : WEnv) (root fp : String) (nc : List Char)
    (pat : Option (List Char)) (sl el : Option Int) (ur : Bool)
    (hroot : env.repoRoot = some root)
    (hg : ((check_sync_status env.git root).1.success
        && !(check_sync_status env.git root).1.warnings.isEmpty) = false) :
    write_text env fp nc pat sl el ur
      = ((write_textCore env fp nc pat sl el ur).1,
         (write_textCore env fp nc pat sl el ur).2.1,
         Event.syncCheck :: (write_textCore env fp nc pat sl el ur).2.2) := by
  unfold write_text
  rw [hroot]
  simp only [hg, Bool.false_eq_true, if_false]

lemma write_text_no_root (env : WEnv) (fp : String) (nc : List Char)
    (pat : Option (List Char)) (sl el : Option Int) (ur : Bool)
    (hroot : env.repoRoot = none) :
    write_text env fp nc pat sl el ur
      = write_textCore env fp nc pat sl el ur := by
  unfold write_text
  rw [hroot]

lemma edit_latex_selection_gate_block (env : WEnv) (root fp : String)
    (s e : Int) (nc : List Char)
    (hroot : env.repoRoot = some root)
    (hs : (check_sync_status env.git root).1.success = true)
    (hw : (check_sync_status env.git root).1.warnings ≠ []) :
    edit_latex_selection env fp s e nc
      = (⟨false, syncWarningMsg (check_sync_status env.git root).1.warnings
            (check_sync_status env.git root).1.suggestions⟩, env.fs,
         [Event.syncCheck]) := by
  unfold edit_latex_selection
  rw [hroot]
  simp only [hs, isEmpty_false_of_ne_nil hw, Bool.not_false, Bool.and_true, if_true]

lemma edit_latex_selection_gate_pass (env : WEnv) (root fp : String)
    (s e : Int) (nc : List Char)
    (hroot : env.repoRoot = some root)
    (hg : ((check_sync_status env.git root).1.success
        && !(check_sync_status env.git root).1.warnings.isEmpty) = false) :
    edit_latex_selection env fp s e nc
      = ((editLatexSelectionCore env fp s e nc).1,
         (editLatexSelectionCore env fp s e nc).2.1,
         Event.syncCheck :: (editLatexSelectionCore env fp s e nc).2.2) := by
  unfold edit_latex_selection
  rw [hroot]
  simp only [hg, Bool.false_eq_true, if_false]

lemma edit_latex_file_gate_pass (env : WEnv) (root fp : String)
    (content : List Char)
    (hp : env.fs.present = true)
    (hroot : env.repoRoot = some root)
    (hg : ((check_sync_status env.git root).1.success
        && !(check_sync_status env.git root).1.warnings.isEmpty) = false) :
    edit_latex_file env fp content
      = ((editLatexFileCore env fp content).1,
         (editLatexFileCore env fp content).2.1,
         Event.syncCheck :: (editLatexFileCore env fp content).2.2) := by
  unfold edit_latex_file
  rw [hp, hroot]
  simp only [hg, Bool.false_eq_true, if_false, if_true]

lemma edit_latex_file_gate_block (env : WEnv) (root fp : String)
    (content : List Char)
    (hp : env.fs.present = true)
    (hroot : env.repoRoot = some root)
    (hs : (check_sync_status env.git root).1.success = true)
    (hw : (check_sync_status env.git root).1.warnings ≠ []) :
    edit_latex_file env fp content
      = (⟨false, syncWarningMsg (check_sync_status env.git root).1.warnings
            (check_sync_status env.git root).1.suggestions⟩, env.fs,
         [Event.syncCheck]) := by
  unfold edit_latex_file
  rw [hp, hroot]
  simp only [hs, isEmpty_false_of_ne_nil hw, Bool.not_false, Bool.and_true, if_true]

lemma edit_latex_file_absent (env : WEnv) (fp : String) (content : List Char)
    (hp : env.fs.present = false) :
    edit_latex_file env fp content = editLatexFileCore env fp content := by
  unfold edit_latex_file
  rw [hp]
  simp only [Bool.false_eq_true, if_false]

lemma write_textCore_line (env : WEnv) (fp : String) (nc : List Char) (s e : Int)
    (hp : env.fs.present = true)
    (h1 : 1 ≤ s) (h2 : s ≤ e)
    (h3 : e ≤ ((splitlinesL env.fs.content).length : Int)) :
    write_textCore env fp nc none (some s) (some e) false
      = ((pushAfterWrite env ("Updated " ++ fp ++ " via write_text")
            ("Successfully replaced lines " ++ toString s ++ "-" ++ toString e
              ++ " in " ++ fp)).1,
         ⟨true, joinLinesL ((splitlinesL env.fs.content).take (s - 1).toNat
            ++ splitlinesL nc ++ (splitlinesL env.fs.content).drop e.toNat)⟩,
         Event.fileWrite :: (pushAfterWrite env ("Updated " ++ fp ++ " via write_text")
            ("Successfully replaced lines " ++ toString s ++ "-" ++ toString e
              ++ " in " ++ fp)).2) := by
  unfold write_textCore
  rw [hp]
  have hc : (decide (s < 1)
      || decide (e > ((splitlinesL env.fs.content).length : Int))
      || decide (s > e)) = false := by
    simp only [Bool.or_eq_false_iff, decide_eq_false_iff_not]
    omega
  simp only [Bool.true_eq_false, if_false, hc, Bool.false_eq_true]

lemma read_text_line (fs : FsState) (fp : String) (s e : Int)
    (hp : fs.present = true) (h1 : 1 ≤ s) (h2 : s ≤ e)
    (h3 : e ≤ ((splitlinesL fs.content).length : Int)) :
    read_text fs fp none (some s) (some e) false
      = { success := true,
          message := "Read lines " ++ toString s ++ "-" ++ toString e
            ++ " from " ++ fp,
          text := joinLinesL
            (((splitlinesL fs.content).drop (s - 1).toNat).take (e - s + 1).toNat),
          start_line := some s, end_line := some e } := by
  unfold read_text
  rw [hp]
  have hc : (decide (s < 1)
      || decide (e > ((splitlinesL fs.content).length : Int))
      || decide (s > e)) = false := by
    simp only [Bool.or_eq_false_iff, decide_eq_false_iff_not]
    omega
  simp only [Bool.true_eq_false, if_false, hc, Bool.false_eq_true]

lemma write_text_of_pass (env : WEnv) (fp : String) (nc : List Char)
    (pat : Option (List Char)) (sl el : Option Int) (ur : Bool)
    (hgp : gatePasses env) :
    (write_text env fp nc pat sl el ur).1
        = (write_textCore env fp nc pat sl el ur).1
    ∧ (write_text env fp nc pat sl el ur).2.1
        = (write_textCore env fp nc pat sl el ur).2.1 := by
  cases hroot : env.repoRoot with
  | none => rw [write_text_no_root env fp nc pat sl el ur hroot]; exact ⟨rfl, rfl⟩
  | some root =>
    rw [write_text_gate_pass env root fp nc pat sl el ur hroot (hgp root hroot)]
    exact ⟨rfl, rfl⟩

/-- C3: when the file lies in a version-controlled tree and the sync check
succeeds with at least one warning, `write_text` and `edit_latex_selection`
refuse the mutation: the outcome is a failure whose message is exactly the
fixed header, every warning bulleted in order, then every suggestion
bulleted in order (each warning and suggestion occurs verbatim inside the
message), the file state is unchanged, and no write event occurs. -/
theorem C3_gate_blocks_and_preserves (env : WEnv) (root fp : String)
    (nc : List Char) (pat : Option (List Char)) (sl el : Option Int) (ur : Bool)
    (s e : Int)
    (hroot : env.repoRoot = some root)
    (hs : (check_sync_status env.git root).1.success = true)
    (hw : (check_sync_status env.git root).1.warnings ≠ []) :
    ((write_text env fp nc pat sl el ur).1.success = false
      ∧ (write_text env fp nc pat sl el ur).1.message
          = syncWarningMsg (check_sync_status env.git root).1.warnings
              (check_sync_status env.git root).1.suggestions
      ∧ (write_text env fp nc pat sl el ur).2.1 = env.fs
      ∧ Event.fileWrite ∉ (write_text env fp nc pat sl el ur).2.2)
    ∧ ((edit_latex_selection env fp s e nc).1.success = false
      ∧ (edit_latex_selection env fp s e nc).1.message
          = syncWarningMsg (check_sync_status env.git root).1.warnings
              (check_sync_status env.git root).1.suggestions
      ∧ (edit_latex_selection env fp s e nc).2.1 = env.fs
      ∧ Event.fileWrite ∉ (edit_latex_selection env fp s e nc).2.2)
    ∧ (∀ w ∈ (check_sync_status env.git root).1.warnings,
        strContains w (write_text env fp nc pat sl el ur).1.message = true)
    ∧ (∀ sg ∈ (check_sync_status env.git root).1.suggestions,
        strContains sg (write_text env fp nc pat sl el ur).1.message = true) := by
  rw [write_text_gate_block env root fp nc pat sl el ur hroot hs hw,
    edit_latex_selection_gate_block env root fp s e nc hroot hs hw]
  refine ⟨⟨rfl, rfl, rfl, by simp⟩, ⟨rfl, rfl, rfl, by simp⟩, ?_, ?_⟩
  · intro w hwmem
    exact syncWarningMsg_contains_warning w _ _ hwmem
  · intro sg hsmem
    exact syncWarningMsg_contains_suggestion sg _ _ hsmem

/-- C3 witness: the gate refuses a concrete `write_text` call. -/
theorem C3_gate_blocks_and_preserves_witness :
    (check_sync_status envWarnW.git "/repo").1.success = true
    ∧ (check_sync_status envWarnW.git "/repo").1.warnings ≠ []
    ∧ (write_text envWarnW "main.tex" "y".data none (some 1) (some 1) false).1.success
        = false
    ∧ (write_text envWarnW "main.tex" "y".data none (some 1) (some 1) false).2.1
        = envWarnW.fs :=
  ⟨by decide, by decide,
   (C3_gate_blocks_and_preserves envWarnW "/repo" "main.tex" "y".data none
      (some 1) (some 1) false 1 1 rfl (by decide) (by decide)).1.1,
   (C3_gate_blocks_and_preserves envWarnW "/repo" "main.tex" "y".data none
      (some 1) (some 1) false 1 1 rfl (by decide) (by decide)).1.2.2.1⟩

lemma write_text_line_mem_write (env : WEnv) (fp : String) (nc : List Char)
    (s e : Int) (hgp : gatePasses env) (hp : env.fs.present = true)
    (h1 : 1 ≤ s) (h2 : s ≤ e)
    (h3 : e ≤ ((splitlinesL env.fs.content).length : Int)) :
    Event.fileWrite ∈ (write_text env fp nc none (some s) (some e) false).2.2 := by
  cases hroot : env.repoRoot with
  | none =>
    rw [write_text_no_root env fp nc none (some s) (some e) false hroot,
      write_textCore_line env fp nc s e hp h1 h2 h3]
    simp
  | some root =>
    rw [write_text_gate_pass env root fp nc none (some s) (some e) false hroot
        (hgp root hroot),
      write_textCore_line env fp nc s e hp h1 h2 h3]
    simp

lemma editLatexFileCore_parts (env : WEnv) (fp : String) (content : List Char) :
    (editLatexFileCore env fp content).1.success = true
    ∧ Event.fileWrite ∈ (editLatexFileCore env fp content).2.2
    ∧ (editLatexFileCore env fp content).2.1 = ⟨true, content⟩ := by
  unfold editLatexFileCore
  cases env.repoRoot with
  | none => exact ⟨rfl, by simp, rfl⟩
  | some root => exact ⟨rfl, by simp, rfl⟩

lemma editLatexSelectionCore_valid (env : WEnv) (fp : String) (nc : List Char)
    (s e : Int) (hgp : gatePasses env)
    (hp : env.fs.present = true) (h1 : 1 ≤ s) (h2 : s ≤ e)
    (h3 : e ≤ ((splitlinesL env.fs.content).length : Int)) :
    (editLatexSelectionCore env fp s e nc).1.success = true
    ∧ Event.fileWrite ∈ (editLatexSelectionCore env fp s e nc).2.2
    ∧ (editLatexSelectionCore env fp s e nc).2.1.content
        = joinLinesL ((splitlinesL env.fs.content).take (s - 1).toNat
            ++ splitlinesL nc ++ (splitlinesL env.fs.content).drop e.toNat) := by
  have hwt1 : (write_text env fp nc none (some s) (some e) false).1.success = true := by
    rw [(write_text_of_pass env fp nc none (some s) (some e) false hgp).1,
      write_textCore_line env fp nc s e hp h1 h2 h3]
    exact pushAfterWrite_success env _ _
  have hwfs : (write_text env fp nc none (some s) (some e) false).2.1
      = ⟨true, joinLinesL ((splitlinesL env.fs.content).take (s - 1).toNat
          ++ splitlinesL nc ++ (splitlinesL env.fs.content).drop e.toNat)⟩ := by
    rw [(write_text_of_pass env fp nc none (some s) (some e) false hgp).2,
      write_textCore_line env fp nc s e hp h1 h2 h3]
  have hmem := write_text_line_mem_write env fp nc s e hgp hp h1 h2 h3
  unfold editLatexSelectionCore
  rw [read_text_line env.fs fp s e hp h1 h2 h3]
  simp only [Bool.true_eq_false, if_false]
  rw [hwt1]
  simp only [Bool.true_eq_false, if_false]
  cases hroot : env.repoRoot with
  | none =>
    refine ⟨rfl, hmem, ?_⟩
    rw [hwfs]
  | some root =>
    refine ⟨rfl, List.mem_append_left _ hmem, ?_⟩
    rw [hwfs]

/-- C5: a failed sync evaluation (success=false, for any reason) never by
itself blocks an edit: `write_text` (line mode), `edit_latex_selection` and
`edit_latex_file` all perform the write and report success. -/
theorem C5_sync_failure_is_advisory (env : WEnv) (root fp : String)
    (nc content : List Char) (s e : Int)
    (hroot : env.repoRoot = some root)
    (hfail : (check_sync_status env.git root).1.success = false)
    (hp : env.fs.present = true)
    (h1 : 1 ≤ s) (h2 : s ≤ e)
    (h3 : e ≤ ((splitlinesL env.fs.content).length : Int)) :
    ((write_text env fp nc none (some s) (some e) false).1.success = true
      ∧ Event.fileWrite ∈ (write_text env fp nc none (some s) (some e) false).2.2
      ∧ (write_text env fp nc none (some s) (some e) false).2.1.content
          = joinLinesL ((splitlinesL env.fs.content).take (s - 1).toNat
              ++ splitlinesL nc ++ (splitlinesL env.fs.content).drop e.toNat))
    ∧ ((edit_latex_selection env fp s e nc).1.success = true
      ∧ Event.fileWrite ∈ (edit_latex_selection env fp s e nc).2.2)
    ∧ ((edit_latex_file env fp content).1.success = true
      ∧ Event.fileWrite ∈ (edit_latex_file env fp content).2.2
      ∧ (edit_latex_file env fp content).2.1.content = content) := by
  have hgp : gatePasses env := by
    intro r hr
    rw [hroot] at hr
    cases hr
    rw [hfail]
    rfl
  have hg := hgp root hroot
  have hsel := editLatexSelectionCore_valid env fp nc s e hgp hp h1 h2 h3
  have hfile := editLatexFileCore_parts env fp content
  refine ⟨⟨?_, ?_, ?_⟩, ⟨?_, ?_⟩, ⟨?_, ?_, ?_⟩⟩
  · rw [(write_text_of_pass env fp nc none (some s) (some e) false hgp).1,
      write_textCore_line env fp nc s e hp h1 h2 h3]
    exact pushAfterWrite_success env _ _
  · exact write_text_line_mem_write env fp nc s e hgp hp h1 h2 h3
  · rw [(write_text_of_pass env fp nc none (some s) (some e) false hgp).2,
      write_textCore_line env fp nc s e hp h1 h2 h3]
  · rw [edit_latex_selection_gate_pass env root fp s e nc hroot hg]
    exact hsel.1
  · rw [edit_latex_selection_gate_pass env root fp s e nc hroot hg]
    exact List.mem_cons_of_mem _ hsel.2.1
  · rw [edit_latex_file_gate_pass env root fp content hp hroot hg]
    exact hfile.1
  · rw [edit_latex_file_gate_pass env root fp content hp hroot hg]
    exact List.mem_cons_of_mem _ hfile.2.1
  · rw [edit_latex_file_gate_pass env root fp content hp hroot hg]
    show (editLatexFileCore env fp content).2.1.content = content
    rw [hfile.2.2]

/-- C5 witness: a concrete failed sync evaluation does not block the edit. -/
theorem C5_sync_failure_is_advisory_witness :
    (check_sync_status envSyncFail.git "/repo").1.success = false
    ∧ (write_text envSyncFail "main.tex" "X".data none (some 2) (some 2) false).1.success
        = true
    ∧ (edit_latex_file envSyncFail "main.tex" "Z".data).1.success = true :=
  ⟨by decide,
   (C5_sync_failure_is_advisory envSyncFail "/repo" "main.tex" "X".data "Z".data
      2 2 rfl (by decide) (by decide) (by decide) (by decide) (by decide)).1.1,
   (C5_sync_failure_is_advisory envSyncFail "/repo" "main.tex" "X".data "Z".data
      2 2 rfl (by decide) (by decide) (by decide) (by decide) (by decide)).2.2.1⟩

/-- C7 (amended): inside a version-controlled tree, `write_text` and
`edit_latex_selection` always consult the sync evaluator before any file
write, and `edit_latex_file` does so provided the target file already
exists; file creation via `edit_latex_file` is the exception and is not
gated. -/
theorem C7_gate_before_write_amended (env : WEnv) (root fp : String)
    (nc content : List Char) (pat : Option (List Char)) (sl el : Option Int)
    (ur : Bool) (s e : Int) (hroot : env.repoRoot = some root) :
    writesGated (write_text env fp nc pat sl el ur).2.2 = true
    ∧ writesGated (edit_latex_selection env fp s e nc).2.2 = true
    ∧ (env.fs.present = true →
        writesGated (edit_latex_file env fp content).2.2 = true) := by
  cases hgc : ((check_sync_status env.git root).1.success
      && !(check_sync_status env.git root).1.warnings.isEmpty) with
  | true =>
    have hs : (check_sync_status env.git root).1.success = true :=
      ((Bool.and_eq_true _ _).mp hgc).1
    have hw : (check_sync_status env.git root).1.warnings ≠ [] := by
      have h2 := ((Bool.and_eq_true _ _).mp hgc).2
      intro hnil
      rw [hnil] at h2
      simp at h2
    refine ⟨?_, ?_, ?_⟩
    · rw [write_text_gate_block env root fp nc pat sl el ur hroot hs hw]
      rfl
    · rw [edit_latex_selection_gate_block env root fp s e nc hroot hs hw]
      rfl
    · intro hp
      rw [edit_latex_file_gate_block env root fp content hp hroot hs hw]
      rfl
  | false =>
    refine ⟨?_, ?_, ?_⟩
    · rw [write_text_gate_pass env root fp nc pat sl el ur hroot hgc]
      exact writesGated_syncCheck_cons _
    · rw [edit_latex_selection_gate_pass env root fp s e nc hroot hgc]
      exact writesGated_syncCheck_cons _
    · intro hp
      rw [edit_latex_file_gate_pass env root fp content hp hroot hgc]
      exact writesGated_syncCheck_cons _

/-- C7 witness: the gate precedes the write in a concrete gated call. -/
theorem C7_gate_before_write_amended_witness :
    envWarnW.repoRoot = some "/repo"
    ∧ writesGated (write_text envWarnW "main.tex" "y".data none (some 1)
        (some 1) false).2.2 = true
    ∧ writesGated (edit_latex_file envWarnW "main.tex" "z".data).2.2 = true :=
  ⟨by decide,
   (C7_gate_before_write_amended envWarnW "/repo" "main.tex" "y".data "z".data
      none (some 1) (some 1) false 1 1 rfl).1,
   (C7_gate_before_write_amended envWarnW "/repo" "main.tex" "y".data "z".data
      none (some 1) (some 1) false 1 1 rfl).2.2 (by decide)⟩

/-- C7 counterexample: creating a new file through `edit_latex_file` inside
a version-controlled tree performs the write without ever consulting the
sync evaluator — even though the evaluator would have reported warnings —
so the claim that every content-mutating call in a version-controlled tree
is gated is false. -/
theorem C7_counterexample :
    envNoFile.repoRoot = some "/repo"
    ∧ (check_sync_status envNoFile.git "/repo").1.success = true
    ∧ (check_sync_status envNoFile.git "/repo").1.warnings ≠ []
    ∧ (edit_latex_file envNoFile "new.tex" "x".data).1.success = true
    ∧ Event.fileWrite ∈ (edit_latex_file envNoFile "new.tex" "x".data).2.2
    ∧ Event.syncCheck ∉ (edit_latex_file envNoFile "new.tex" "x".data).2.2
    ∧ writesGated (edit_latex_file envNoFile "new.tex" "x".data).2.2 = false := by
  decide

lemma gatePasses_of_no_root (env : WEnv) (h : env.repoRoot = none) :
    gatePasses env := by
  intro root hr
  rw [h] at hr
  cases hr

lemma gatePasses_of_root (env : WEnv) (r : String) (h : env.repoRoot = some r)
    (hc : ((check_sync_status env.git r).1.success
        && !(check_sync_status env.git r).1.warnings.isEmpty) = false) :
    gatePasses env := by
  intro root hr
  rw [h] at hr
  cases hr
  exact hc

/-- C4 counterexample: with the literal pattern "aba" occurring twice in
"aba aba", `write_text` in regex mode rewrites the file to "X X" — every
occurrence is replaced (CPython `re.sub` with no count), not only the
first, so the claim is false for regex mode. -/
theorem C4_counterexample :
    isSubstrL "aba".data " aba".data = true
    ∧ (write_text envPlain "f.tex" "X".data (some "aba".data) none none true).2.1.content
        = "X X".data
    ∧ (write_text envPlain "f.tex" "X".data (some "aba".data) none none true).2.1.content
        ≠ replaceFirstL "aba".data "X".data "aba aba".data := by
  decide

/-- C4 (amended): exact-match mode replaces only the first occurrence —
the file becomes the prefix before the leftmost match, the replacement,
and the untouched suffix — while regex mode (for a metacharacter-free
pattern and backslash-free replacement) replaces every non-overlapping
occurrence. -/
theorem C4_pattern_replacement_amended (env : WEnv) (fp : String)
    (nc pat : List Char) (i : Nat)
    (hgp : gatePasses env)
    (hp : env.fs.present = true)
    (hne : pat ≠ [])
    (hlit : isRegexLiteral pat = true)
    (hfind : findFirst pat env.fs.content = some i) :
    (write_text env fp nc (some pat) none none false).2.1.content
        = env.fs.content.take i ++ nc ++ env.fs.content.drop (i + pat.length)
    ∧ (write_text env fp nc (some pat) none none true).2.1.content
        = replaceAllL pat nc env.fs.content := by
  have hsub : isSubstrL pat env.fs.content = true := by
    unfold isSubstrL
    rw [hfind]
    rfl
  constructor
  · rw [(write_text_of_pass env fp nc (some pat) none none false hgp).2]
    unfold write_textCore
    rw [hp]
    simp only [Bool.true_eq_false, if_false, Bool.false_eq_true, hsub, if_true]
    show replaceFirstL pat nc env.fs.content = _
    unfold replaceFirstL
    rw [hfind]
  · rw [(write_text_of_pass env fp nc (some pat) none none true hgp).2]
    unfold write_textCore
    rw [hp]
    simp only [Bool.true_eq_false, if_false, Bool.false_eq_true, hsub, if_true]

/-- C4 witness: the amended behaviour at a concrete file. -/
theorem C4_pattern_replacement_amended_witness :
    findFirst "aba".data "aba aba".data = some 0
    ∧ (write_text envPlain "f.tex" "X".data (some "aba".data) none none false).2.1.content
        = "X aba".data
    ∧ (write_text envPlain "f.tex" "X".data (some "aba".data) none none true).2.1.content
        = "X X".data :=
  ⟨by decide,
   ((C4_pattern_replacement_amended envPlain "f.tex" "X".data "aba".data 0
      (gatePasses_of_no_root envPlain rfl) (by decide) (by decide) (by decide)
      (by decide)).1).trans (by decide),
   ((C4_pattern_replacement_amended envPlain "f.tex" "X".data "aba".data 0
      (gatePasses_of_no_root envPlain rfl) (by decide) (by decide) (by decide)
      (by decide)).2).trans (by decide)⟩

lemma push_to_overleaf_commit_msg_indep (env : PushEnv) (rp m m' : String) :
    push_to_overleaf env rp m = push_to_overleaf env rp m' := rfl

lemma pushAfterWrite_fail (env : WEnv) (root m b : String)
    (hroot : env.repoRoot = some root)
    (hpf : (push_to_overleaf env.push root m).1.success = false)
    (hnc : strContains "nothing to commit"
      (lowerStr (push_to_overleaf env.push root m).1.message) = false) :
    (pushAfterWrite env m b).1
      = ⟨true, b ++ ", but push failed: "
          ++ (push_to_overleaf env.push root m).1.message⟩ := by
  unfold pushAfterWrite
  rw [hroot]
  simp only [hpf, hnc, Bool.not_false, Bool.and_self, if_true]

lemma editLatexSelectionCore_push_fail (env : WEnv) (root fp m : String)
    (nc : List Char) (s e : Int)
    (hroot : env.repoRoot = some root) (hgp : gatePasses env)
    (hp : env.fs.present = true) (h1 : 1 ≤ s) (h2 : s ≤ e)
    (h3 : e ≤ ((splitlinesL env.fs.content).length : Int))
    (hpf : (push_to_overleaf env.push root m).1.success = false)
    (hnc : strContains "nothing to commit"
      (lowerStr (push_to_overleaf env.push root m).1.message) = false) :
    (editLatexSelectionCore env fp s e nc).1
      = ⟨true, "Successfully edited lines " ++ toString s ++ "-" ++ toString e
          ++ " in " ++ fp ++ ", but push failed: "
          ++ (push_to_overleaf env.push root m).1.message⟩ := by
  have hwt1 : (write_text env fp nc none (some s) (some e) false).1.success = true := by
    rw [(write_text_of_pass env fp nc none (some s) (some e) false hgp).1,
      write_textCore_line env fp nc s e hp h1 h2 h3]
    exact pushAfterWrite_success env _ _
  have hpf' : (push_to_overleaf env.push root
      ("Updated " ++ fp ++ " via edit_latex_selection")).1.success = false := hpf
  have hnc' : strContains "nothing to commit"
      (lowerStr (push_to_overleaf env.push root
        ("Updated " ++ fp ++ " via edit_latex_selection")).1.message) = false := hnc
  unfold editLatexSelectionCore
  rw [read_text_line env.fs fp s e hp h1 h2 h3]
  simp only [Bool.true_eq_false, if_false]
  rw [hwt1]
  simp only [Bool.true_eq_false, if_false]
  rw [hroot]
  simp only [hpf', hnc', Bool.or_self, Bool.false_eq_true, if_false]
  rfl

/-- C6: a publish failure after a successful gated write does not flip the
outcome.  A commit whose stdout reports nothing-to-commit makes
`push_to_overleaf` return a successful no-op; and when the push fails for
any other reason, `write_text` and `edit_latex_selection` still return
success=true with the push failure appended to the message as an
informational suffix, the written content staying in place. -/
theorem C6_publish_failure_is_informational (env : WEnv) (penv : PushEnv)
    (root fp rp m : String) (nc : List Char) (s e : Int)
    (hprepo : penv.isRepo = true)
    (hpadd : penv.addResult.exitCode = 0)
    (hpntc : strContains "nothing to commit" (lowerStr penv.commitResult.stdout)
        = true)
    (hroot : env.repoRoot = some root) (hgp : gatePasses env)
    (hp : env.fs.present = true) (h1 : 1 ≤ s) (h2 : s ≤ e)
    (h3 : e ≤ ((splitlinesL env.fs.content).length : Int))
    (hpf : (push_to_overleaf env.push root m).1.success = false)
    (hnc : strContains "nothing to commit"
        (lowerStr (push_to_overleaf env.push root m).1.message) = false) :
    (push_to_overleaf penv rp m).1 = ⟨true, "No changes to commit"⟩
    ∧ (write_text env fp nc none (some s) (some e) false).1
        = ⟨true, "Successfully replaced lines " ++ toString s ++ "-" ++ toString e
            ++ " in " ++ fp ++ ", but push failed: "
            ++ (push_to_overleaf env.push root m).1.message⟩
    ∧ (edit_latex_selection env fp s e nc).1
        = ⟨true, "Successfully edited lines " ++ toString s ++ "-" ++ toString e
            ++ " in " ++ fp ++ ", but push failed: "
            ++ (push_to_overleaf env.push root m).1.message⟩
    ∧ (write_text env fp nc none (some s) (some e) false).2.1.content
        = joinLinesL ((splitlinesL env.fs.content).take (s - 1).toNat
            ++ splitlinesL nc ++ (splitlinesL env.fs.content).drop e.toNat) := by
  refine ⟨?_, ?_, ?_, ?_⟩
  · unfold push_to_overleaf
    simp only [hprepo, hpadd, hpntc, Bool.true_eq_false, if_false, ne_eq,
      not_true_eq_false, if_true]
  · rw [(write_text_of_pass env fp nc none (some s) (some e) false hgp).1,
      write_textCore_line env fp nc s e hp h1 h2 h3]
    have hpf' : (push_to_overleaf env.push root
        ("Updated " ++ fp ++ " via write_text")).1.success = false := hpf
    have hnc' : strContains "nothing to commit"
        (lowerStr (push_to_overleaf env.push root
          ("Updated " ++ fp ++ " via write_text")).1.message) = false := hnc
    exact pushAfterWrite_fail env root _ _ hroot hpf' hnc'
  · rw [edit_latex_selection_gate_pass env root fp s e nc hroot (hgp root hroot)]
    exact editLatexSelectionCore_push_fail env root fp m nc s e hroot hgp hp
      h1 h2 h3 hpf hnc
  · rw [(write_text_of_pass env fp nc none (some s) (some e) false hgp).2,
      write_textCore_line env fp nc s e hp h1 h2 h3]

/-- C6 witness: the no-op publish and the informational suffix at concrete
worlds. -/
theorem C6_publish_failure_is_informational_witness :
    (push_to_overleaf pushNtc "/repo" "m").1 = ⟨true, "No changes to commit"⟩
    ∧ (write_text envPushFail "f.tex" "X".data none (some 1) (some 1) false).1.success
        = true :=
  ⟨(C6_publish_failure_is_informational envPushFail pushNtc "/repo" "f.tex"
      "/repo" "m" "X".data 1 1 (by decide) (by decide) (by decide) rfl
      (gatePasses_of_root envPushFail "/repo" rfl (by decide)) (by decide)
      (by decide) (by decide) (by decide) (by decide) (by decide)).1,
   by rw [(C6_publish_failure_is_informational envPushFail pushNtc "/repo" "f.tex"
      "/repo" "m" "X".data 1 1 (by decide) (by decide) (by decide) rfl
      (gatePasses_of_root envPushFail "/repo" rfl (by decide)) (by decide)
      (by decide) (by decide) (by decide) (by decide) (by decide)).2.1]⟩

/-- C10: after a successful stage, the commit's exit code is never
inspected: when the commit stdout does not contain "nothing to commit",
the push is attempted (and here succeeds) even though the commit itself
exited non-zero, and the overall result reports success. -/
theorem C10_commit_exit_never_inspected (env : PushEnv) (rp m : String)
    (hrepo : env.isRepo = true)
    (hadd : env.addResult.exitCode = 0)
    (hcommit : env.commitResult.exitCode ≠ 0)
    (hntc : strContains "nothing to commit" (lowerStr env.commitResult.stdout)
        = false)
    (hpush : env.pushMain.exitCode = 0) :
    (push_to_overleaf env rp m).1
        = ⟨true, "Successfully pushed changes to Overleaf"⟩
    ∧ Event.gitPushMain ∈ (push_to_overleaf env rp m).2 := by
  unfold push_to_overleaf
  simp only [hrepo, hadd, hntc, hpush, Bool.true_eq_false, if_false, ne_eq,
    not_true_eq_false, Bool.false_eq_true, if_true]
  simp

/-- C10 witness: a failed commit with a successful push still reports
overall success. -/
theorem C10_commit_exit_never_inspected_witness :
    pushNoIdent.commitResult.exitCode ≠ 0
    ∧ (push_to_overleaf pushNoIdent "/repo" "m").1
        = ⟨true, "Successfully pushed changes to Overleaf"⟩ :=
  ⟨by decide,
   (C10_commit_exit_never_inspected pushNoIdent "/repo" "m" (by decide)
      (by decide) (by decide) (by decide) (by decide)).1⟩

/-- C8 counterexample: replacing line 1 of a three-line file with the
two-line content "x\ny" and reading back lines 1–1 returns only "x", not
the written content — the claim fails whenever the replacement has a
different line count than the replaced range. -/
theorem C8_roundtrip_counterexample :
    (1 : Int) ≤ 1
    ∧ (1 : Int) ≤ ((splitlinesL envPlainLines.fs.content).length : Int)
    ∧ (read_text (write_text envPlainLines "f.tex" "x\ny".data none (some 1)
        (some 1) false).2.1 "f.tex" none (some 1) (some 1) false).success = true
    ∧ (read_text (write_text envPlainLines "f.tex" "x\ny".data none (some 1)
        (some 1) false).2.1 "f.tex" none (some 1) (some 1) false).text = "x".data
    ∧ (read_text (write_text envPlainLines "f.tex" "x\ny".data none (some 1)
        (some 1) false).2.1 "f.tex" none (some 1) (some 1) false).text
        ≠ "x\ny".data := by
  decide

/-- C8 (amended): the write-then-read round trip over the same line range
returns exactly the written content, provided the written content has
exactly `end - start + 1` lines and is the newline-join of its own lines
(no trailing newline). -/
theorem C8_line_roundtrip_amended (env : WEnv) (fp : String) (nc : List Char)
    (s e : Int) (hgp : gatePasses env) (hp : env.fs.present = true)
    (h1 : 1 ≤ s) (h2 : s ≤ e)
    (h3 : e ≤ ((splitlinesL env.fs.content).length : Int))
    (hk : ((splitlinesL nc).length : Int) = e - s + 1)
    (hnorm : joinLinesL (splitlinesL nc) = nc) :
    (read_text (write_text env fp nc none (some s) (some e) false).2.1 fp none
        (some s) (some e) false).success = true
    ∧ (read_text (write_text env fp nc none (some s) (some e) false).2.1 fp none
        (some s) (some e) false).text = nc := by
  have hfs : (write_text env fp nc none (some s) (some e) false).2.1
      = ⟨true, joinLinesL ((splitlinesL env.fs.content).take (s - 1).toNat
          ++ splitlinesL nc ++ (splitlinesL env.fs.content).drop e.toNat)⟩ := by
    rw [(write_text_of_pass env fp nc none (some s) (some e) false hgp).2,
      write_textCore_line env fp nc s e hp h1 h2 h3]
  rw [hfs]
  set lines := splitlinesL env.fs.content with hlines
  set mid := splitlinesL nc with hmiddef
  set pre := lines.take (s - 1).toNat with hpredef
  set suf := lines.drop e.toNat with hsufdef
  have hkN : mid.length = (e - s + 1).toNat := by omega
  have hmidne : mid ≠ [] := by
    intro h
    rw [h] at hkN
    simp at hkN
    omega
  have hpre_len : pre.length = (s - 1).toNat := by
    rw [hpredef, List.length_take]
    omega
  have hsuf_len : suf.length = lines.length - e.toNat := by
    rw [hsufdef, List.length_drop]
  have hfree : ∀ l ∈ pre ++ mid ++ suf, '\n' ∉ l := by
    intro l hl
    rcases List.mem_append.mp hl with hl2 | hl2
    · rcases List.mem_append.mp hl2 with hl3 | hl3
      · exact mem_splitlinesL_no_newline _ l (List.take_subset _ _ hl3)
      · exact mem_splitlinesL_no_newline nc l hl3
    · exact mem_splitlinesL_no_newline _ l (List.drop_subset _ _ hl2)
  have hne : pre ++ mid ++ suf ≠ [] := by
    intro h
    rcases List.append_eq_nil.mp h with ⟨h12, _⟩
    exact hmidne (List.append_eq_nil.mp h12).2
  have hlast_mid : mid.getLast? ≠ some [] :=
    splitlinesL_no_trailing_empty nc hnorm
  have hsplit := splitlinesL_join (pre ++ mid ++ suf) hne hfree
  by_cases hlast : (pre ++ mid ++ suf).getLast? = some []
  · -- the original file's trailing line after the range is empty and gets
    -- merged away by the write's join; the range itself sits before it
    have hsufne : suf ≠ [] := by
      intro hsufnil
      rw [hsufnil, List.append_nil] at hlast
      rw [List.getLast?_append_of_ne_nil pre hmidne] at hlast
      exact hlast_mid hlast
    have hsuf_pos : 0 < suf.length := List.length_pos.mpr hsufne
    have hdrop : splitlinesL (joinLinesL (pre ++ mid ++ suf))
        = pre ++ mid ++ suf.dropLast := by
      rw [hsplit, if_pos hlast]
      exact dropLast_append_ne (pre ++ mid) suf hsufne
    have hlen2 : (pre ++ mid ++ suf.dropLast).length
        = pre.length + mid.length + (suf.length - 1) := by
      simp [List.length_append, List.length_dropLast]
      omega
    have hbound : e ≤ (((pre ++ mid ++ suf.dropLast)).length : Int) := by
      omega
    have hslice : (((pre ++ mid ++ suf.dropLast)).drop (s - 1).toNat).take
        (e - s + 1).toNat = mid := by
      rw [List.append_assoc, List.drop_left' hpre_len,
        List.take_left' hkN]
    rw [read_text_line ⟨true, joinLinesL (pre ++ mid ++ suf)⟩ fp s e rfl h1 h2
      (by rw [hdrop]; exact hbound)]
    refine ⟨rfl, ?_⟩
    show joinLinesL (((splitlinesL (joinLinesL (pre ++ mid ++ suf))).drop
      (s - 1).toNat).take (e - s + 1).toNat) = nc
    rw [hdrop, hslice, hnorm]
  · have hkeep : splitlinesL (joinLinesL (pre ++ mid ++ suf))
        = pre ++ mid ++ suf := by
      rw [hsplit, if_neg hlast]
    have hlen2 : (pre ++ mid ++ suf).length
        = pre.length + mid.length + suf.length := by
      simp [List.length_append]
      omega
    have hbound : e ≤ (((pre ++ mid ++ suf)).length : Int) := by
      omega
    have hslice : (((pre ++ mid ++ suf)).drop (s - 1).toNat).take
        (e - s + 1).toNat = mid := by
      rw [List.append_assoc, List.drop_left' hpre_len,
        List.take_left' hkN]
    rw [read_text_line ⟨true, joinLinesL (pre ++ mid ++ suf)⟩ fp s e rfl h1 h2
      (by rw [hkeep]; exact hbound)]
    refine ⟨rfl, ?_⟩
    show joinLinesL (((splitlinesL (joinLinesL (pre ++ mid ++ suf))).drop
      (s - 1).toNat).take (e - s + 1).toNat) = nc
    rw [hkeep, hslice, hnorm]

/-- C8 witness: a same-line-count round trip at a concrete file. -/
theorem C8_line_roundtrip_amended_witness :
    ((splitlinesL "X\nY".data).length : Int) = 3 - 2 + 1
    ∧ (read_text (write_text envPlainLines "f.tex" "X\nY".data none (some 2)
        (some 3) false).2.1 "f.tex" none (some 2) (some 3) false).success = true
    ∧ (read_text (write_text envPlainLines "f.tex" "X\nY".data none (some 2)
        (some 3) false).2.1 "f.tex" none (some 2) (some 3) false).text
        = "X\nY".data :=
  ⟨by decide,
   (C8_line_roundtrip_amended envPlainLines "f.tex" "X\nY".data 2 3
      (gatePasses_of_no_root envPlainLines rfl) (by decide) (by decide)
      (by decide) (by decide) (by decide) (by decide)).1,
   (C8_line_roundtrip_amended envPlainLines "f.tex" "X\nY".data 2 3
      (gatePasses_of_no_root envPlainLines rfl) (by decide) (by decide)
      (by decide) (by decide) (by decide) (by decide)).2⟩

/-- C9 counterexample: the source filters with a substring test `".git" not
in str(f)` on the whole path, so a top-level `.gitignore` — which is not in
the metadata directory — is also excluded: the returned list is
["main.tex"], not the claimed ["main.tex", ".gitignore"]. -/
theorem C9_files_counterexample :
    (pull_overleaf_project pullEnvDot (some "https://git.overleaf.com/abc123")
        (some "/p") (some "tok")).success = true
    ∧ (pull_overleaf_project pullEnvDot (some "https://git.overleaf.com/abc123")
        (some "/p") (some "tok")).files_pulled = ["main.tex"]
    ∧ specExpectedFilesPulled pullEnvDot.filesUnder = ["main.tex", ".gitignore"]
    ∧ (pull_overleaf_project pullEnvDot (some "https://git.overleaf.com/abc123")
        (some "/p") (some "tok")).files_pulled
        ≠ specExpectedFilesPulled pullEnvDot.filesUnder := by
  decide

/-- C9 (amended): every successful pull returns the resolved absolute local
path and the relative paths of the files under it whose full path string
does not contain ".git" anywhere (this drops the metadata directory, but
also any other path containing the substring, such as `.gitignore`),
capped at the first 50. -/
theorem C9_files_capped_amended (env : PullEnv) (u lp : String)
    (token : Option String)
    (hu : u.data.isEmpty = false) (hlp : lp.data.isEmpty = false)
    (hsucc : (pull_overleaf_project env (some u) (some lp) token).success = true) :
    (pull_overleaf_project env (some u) (some lp) token).files_pulled
        = (env.filesUnder.filter fun rel =>
            !strContains ".git" (lp ++ "/" ++ rel)).take 50
    ∧ (pull_overleaf_project env (some u) (some lp) token).local_path
        = env.absOf lp
    ∧ (pull_overleaf_project env (some u) (some lp) token).files_pulled.length
        ≤ 50 := by
  unfold pull_overleaf_project at hsucc ⊢
  simp only [hu, hlp, Bool.false_eq_true, if_false] at hsucc ⊢
  by_cases hgit : env.localHasGit = true
  · simp only [hgit, if_true] at hsucc ⊢
    by_cases hpr : (if env.pullMain.exitCode ≠ 0 then env.pullMaster
        else env.pullMain).exitCode = 0
    · simp only [if_pos hpr] at hsucc ⊢
      refine ⟨by trivial, by trivial, ?_⟩
      show (pullFileList lp env.filesUnder).length ≤ 50
      unfold pullFileList
      exact List.length_take_le 50 _
    · simp only [if_neg hpr] at hsucc
      exact absurd hsucc (by simp)
  · simp only [if_neg hgit] at hsucc ⊢
    by_cases hcl : env.cloneResult.exitCode = 0
    · simp only [if_pos hcl] at hsucc ⊢
      refine ⟨by trivial, by trivial, ?_⟩
      show (pullFileList lp env.filesUnder).length ≤ 50
      unfold pullFileList
      exact List.length_take_le 50 _
    · simp only [if_neg hcl] at hsucc
      exact absurd hsucc (by simp)

/-- C9 witness: the amended file-list computation at a concrete pull. -/
theorem C9_files_capped_amended_witness :
    (pull_overleaf_project pullEnvOkay (some "https://git.overleaf.com/abc")
        (some "/p") none).success = true
    ∧ (pull_overleaf_project pullEnvOkay (some "https://git.overleaf.com/abc")
        (some "/p") none).files_pulled = ["main.tex", "chapters/ch1.tex"] :=
  ⟨by decide,
   ((C9_files_capped_amended pullEnvOkay "https://git.overleaf.com/abc" "/p"
      none (by decide) (by decide) (by decide)).1).trans (by decide)⟩

example : splitlinesL "a\nb\nc".data = ["a".data, "b".data, "c".data] := by decide
example : splitlinesL "a\nb\n".data = ["a".data, "b".data] := by decide
example : splitlinesL "".data = [] := by decide
example : splitlinesL "\n".data = ["".data] := by decide
example : splitlinesL "a\n\n".data = ["a".data, "".data] := by decide
example : replaceFirstL "aba".data "X".data "aba aba".data = "X aba".data := by decide
example : replaceAllL "aba".data "X".data "aba aba".data = "X X".data := by decide
example : findFirst "b".data "abc".data = some 1 := by decide
example : strContains "nothing to commit" (lowerStr "Nothing to Commit, working tree clean") = true := by
  decide

end OverleafMcp
